import Mathlib

/-!
Verification development for the GECSWS help-center theme widgets.

Two source files are embedded shallowly:

* src/assets/extension-article-navigation.js — the article-navigation
  widget: option-driven filtering (`_filterObjects`), sorting
  (`_sortObjects`), the hierarchical merge (`_sortArticles`) and the
  current/previous/next computation in `render`.

* src/unnamed/part_000 — the video-library widget: the `onImagesLoaded`
  image barrier, the `numberPlayersReady === this.ids.length` readiness
  check in `onPlayerReady`, and the `options.ids.split(',')` parsing in
  `initialize`.

Pure JS functions become Lean functions; the in-place array mutation of
`_sortArticles` (reverse / sort / splice) is made explicit by threading the
array contents through folds, and the readiness counter becomes a small
step function iterated over the incoming player-ready signals.
-/

namespace KcTheme

/-- One help-center entity record (article, section or category).  The JS
code is duck-typed, so a single record type carries every field the embedded
functions read: `id`, `name`, `position`, `draft`, `section_id`,
`category_id`.  A field the REST payload does not carry for a given entity
kind is simply 0 (or the empty string) at concrete inputs; no embedded
function reads such a field on the wrong kind. -/
structure Entity where
  id : Nat
  name : String
  position : Nat
  draft : Bool
  section_id : Nat
  category_id : Nat
deriving DecidableEq, Repr

/-- The collection handed to the navigation widget: the REST document shape
{categories, sections, articles}. -/
structure Collection where
  categories : List Entity
  sections : List Entity
  articles : List Entity
deriving DecidableEq, Repr

/-- The three entity-group keys (`objectType`) used by `_filterObjects` and
`_sortObjects`. -/
inductive ObjectType where
  | categories
  | sections
  | articles
deriving DecidableEq, Repr

/-- Value stored under one key of the `filter` option object: JS null, a
predicate function, or a string naming a Util helper. -/
inductive FilterVal where
  | null
  | fn (p : Entity → Bool)
  | name (s : String)

/-- Value stored under one key of the `sort` option object: JS null, a
comparator function, or a string naming a Util helper. -/
inductive SortVal where
  | null
  | fn (c : Entity → Entity → Int)
  | name (s : String)

/-- The navigation-widget options consulted by the embedded functions
(extension-article-navigation.js lines 18-83).  For the `filter` and `sort`
objects, `none` models a key that is absent (hasOwnProperty false) and
`some FilterVal.null` / `some SortVal.null` a key explicitly set to JS null;
`articleId := none` models the JS null default. -/
structure Options where
  filter : ObjectType → Option FilterVal
  sort : ObjectType → Option SortVal
  sortOrder : String
  articleId : Option Nat

/-- Insertion of an element in front of the first list element it is
le-before; the earlier-input element wins ties, which is exactly the
stability contract. -/
def orderedIns (le : Entity → Entity → Bool) (a : Entity) : List Entity → List Entity
  | [] => [a]
  | b :: l => if le a b then a :: b :: l else b :: orderedIns le a l

/-- Stable sort by insertion.  ECMAScript requires `Array.prototype.sort` to
be stable, and for a consistent comparator the stable sorted order is
unique, so this is the order the JS engine produces. -/
def stableSort (le : Entity → Entity → Bool) (l : List Entity) : List Entity :=
  l.foldr (orderedIns le) []

/-- JS `array.sort(cmp)` for a numeric comparator: stable order by
`cmp a b <= 0` (a sorts no later than b when the comparator is
non-positive). -/
def jsSort (cmp : Entity → Entity → Int) (l : List Entity) : List Entity :=
  stableSort (fun a b => decide (cmp a b ≤ 0)) l

/-- Modelled from the spec: `Util.sortByPosition` lives in the theme's shared
utility bundle, outside this repository's sources.  Spec section 4.2
documents it as the default comparator, sorting by ascending `position`. -/
def sortByPosition (a b : Entity) : Int :=
  (a.position : Int) - (b.position : Int)

/-- Modelled from the spec: the plugin-level `sortByName` helper named at
line 209 of extension-article-navigation.js is defined outside src/.  Spec
section 9 records that, despite its label, its implementation sorts by
position, so it is the position comparator. -/
def sortByName (a b : Entity) : Int :=
  (a.position : Int) - (b.position : Int)

/-- Modelled from the spec: the registry of named Util comparators reachable
through `Util[method]` in `_sortObjects`; the spec documents
`sortByPosition` as the built-in comparator the defaults name. -/
def utilSortFns (s : String) : Option (Entity → Entity → Int) :=
  if s = "sortByPosition" then some sortByPosition else none

/-- Modelled from the spec: named Util filter predicates reachable through
`Util[method]` in `_filterObjects`.  The spec documents no built-in named
predicate (the defaults are function-valued), so the registry is empty. -/
def utilFilterFns (_s : String) : Option (Entity → Bool) := none

/-- The `defaultSortingFunctions` table inside `_sortObjects`
(lines 206-210): position for categories and sections, the `sortByName`
helper for articles. -/
def defaultSortingFunctions (t : ObjectType) : Entity → Entity → Int :=
  match t with
  | ObjectType.categories => sortByPosition
  | ObjectType.sections => sortByPosition
  | ObjectType.articles => sortByName

/-- Whether `options.sort[objectType]` is explicitly JS null (an absent key
is undefined, which is not strictly equal to null). -/
def sortIsNull (opts : Options) (t : ObjectType) : Bool :=
  match opts.sort t with
  | some SortVal.null => true
  | _ => false

/-- The predicate `_filterObjects` (lines 183-196) actually applies, if any.
The guard is the source's own:
`options.filter.hasOwnProperty(objectType) && options.sort[objectType] !== null`
(note: the second conjunct consults the *sort* configuration).  Inside the
guard, a function value is used directly, a string is looked up in Util, and
anything else (including an unknown string or a null value) leaves the
objects unfiltered. -/
def resolveFilter (opts : Options) (t : ObjectType) : Option (Entity → Bool) :=
  if (opts.filter t).isSome && !(sortIsNull opts t) then
    match opts.filter t with
    | some (FilterVal.fn p) => some p
    | some (FilterVal.name s) => utilFilterFns s
    | _ => none
  else none

/-- `_filterObjects(objects, objectType)` (lines 183-196).  When a predicate
is resolved, JS `objects.filter(p)` returns a fresh array; otherwise the
function returns the caller's array itself. -/
def filterObjects (opts : Options) (t : ObjectType) (objects : List Entity) : List Entity :=
  match resolveFilter opts t with
  | some p => objects.filter p
  | none => objects

/-- The comparator `_sortObjects` (lines 204-222) sorts with: a configured
function directly, a configured string through the Util registry, and in
every other case (absent key, null value, unknown name) the
`defaultSortingFunctions` entry for the object type. -/
def resolveSortCmp (opts : Options) (t : ObjectType) : Entity → Entity → Int :=
  match opts.sort t with
  | some (SortVal.fn c) => c
  | some (SortVal.name s) =>
    match utilSortFns s with
    | some c => c
    | none => defaultSortingFunctions t
  | _ => defaultSortingFunctions t

/-- `_sortObjects(objects, objectType)`: an in-place `objects.sort` with the
resolved comparator, returning the (same, now sorted) array. -/
def sortObjects (opts : Options) (t : ObjectType) (objects : List Entity) : List Entity :=
  jsSort (resolveSortCmp opts t) objects

/-- The widget defaults (lines 18-69): a draft-excluding filter function for
every group (`draft !== true`), the string "sortByPosition" for every sort
key, ascending order, and a null current-article id. -/
def defaultOptions : Options where
  filter := fun _ => some (FilterVal.fn (fun r => !r.draft))
  sort := fun _ => some (SortVal.name "sortByPosition")
  sortOrder := "asc"
  articleId := none

/-- The inner while loop of `_sortArticles` (lines 163-170): scan the pending
article pool from its end, push every article of the given section onto the
accumulator in scan order, and splice it out of the pool.  Returns
(pushed articles in push order, remaining pool in original order). -/
def spliceScan (sid : Nat) : List Entity → List Entity × List Entity
  | [] => ([], [])
  | a :: rest =>
    if a.section_id = sid then ((spliceScan sid rest).1 ++ [a], (spliceScan sid rest).2)
    else ((spliceScan sid rest).1, a :: (spliceScan sid rest).2)

/-- One step of the section forEach (lines 161-172): state is (pending
article pool, accumulated sortedArticles).  Sections of other categories
leave the state untouched. -/
def sectionStep (catId : Nat) (st : List Entity × List Entity) (s : Entity) :
    List Entity × List Entity :=
  if s.category_id = catId then ((spliceScan s.id st.1).2, st.2 ++ (spliceScan s.id st.1).1)
  else st

/-- State threaded through the category forEach of `_sortArticles`: the
content of the (mutated in place) `sections` array, the pending `articles`
pool, and the accumulated `sortedArticles`. -/
structure LoopState where
  secs : List Entity
  arts : List Entity
  acc : List Entity

/-- One step of the category forEach (lines 160-173): `sortObjects` re-sorts
the sections array in place, then the section loop runs with this category's
id. -/
def categoryStep (opts : Options) (st : LoopState) (c : Entity) : LoopState :=
  { secs := sortObjects opts ObjectType.sections st.secs
    arts := ((sortObjects opts ObjectType.sections st.secs).foldl
      (sectionStep c.id) (st.arts, st.acc)).1
    acc := ((sortObjects opts ObjectType.sections st.secs).foldl
      (sectionStep c.id) (st.arts, st.acc)).2 }

/-- Line 153: `_filterObjects(collection.sections, 'sections').reverse()`. -/
def initialSecs (opts : Options) (coll : Collection) : List Entity :=
  (filterObjects opts ObjectType.sections coll.sections).reverse

/-- Lines 154 and 158: filter the articles, then
`articles = sortObjects(articles, 'articles')`. -/
def initialArts (opts : Options) (coll : Collection) : List Entity :=
  sortObjects opts ObjectType.articles (filterObjects opts ObjectType.articles coll.articles)

/-- Lines 152 and 160: `_filterObjects(collection.categories,
'categories').reverse()`, then `sortObjects(categories, 'categories')` in the
forEach header (executed once, before any iteration). -/
def initialCats (opts : Options) (coll : Collection) : List Entity :=
  sortObjects opts ObjectType.categories
    ((filterObjects opts ObjectType.categories coll.categories).reverse)

/-- The loop state after the whole category forEach of `_sortArticles`. -/
def finalState (opts : Options) (coll : Collection) : LoopState :=
  (initialCats opts coll).foldl (categoryStep opts)
    { secs := initialSecs opts coll, arts := initialArts opts coll, acc := [] }

/-- Result of one `_sortArticles` call together with the post-call content of
the caller's three collection arrays.  JS aliasing decides the latter: when
`_filterObjects` applies a predicate it returns a fresh array and the
caller's array is untouched; otherwise the caller's own array object is what
the subsequent in-place `reverse()`, `sort()` and `splice()` mutate. -/
structure SortResult where
  sorted : List Entity
  catsFinal : List Entity
  secsFinal : List Entity
  artsFinal : List Entity
deriving DecidableEq, Repr

/-- `_sortArticles(collection)` (lines 151-175) with the frame information:
line 174 returns the accumulator itself for 'desc' order and its reversal
otherwise. -/
def sortArticlesRun (opts : Options) (coll : Collection) : SortResult :=
  { sorted :=
      if opts.sortOrder = "desc" then (finalState opts coll).acc
      else (finalState opts coll).acc.reverse
    catsFinal :=
      if (resolveFilter opts ObjectType.categories).isSome then coll.categories
      else initialCats opts coll
    secsFinal :=
      if (resolveFilter opts ObjectType.sections).isSome then coll.sections
      else (finalState opts coll).secs
    artsFinal :=
      if (resolveFilter opts ObjectType.articles).isSome then coll.articles
      else (finalState opts coll).arts }

/-- The list returned by `_sortArticles(collection)`. -/
def sortArticles (opts : Options) (coll : Collection) : List Entity :=
  (sortArticlesRun opts coll).sorted

/-- Modelled from the spec: the straightforward forward two-level group-by
the spec's section 4.2 step 5 claims the double-reversal algorithm is
equivalent to — categories in ascending comparator order, within each
category its sections in ascending comparator order, within each section its
matching articles in ascending comparator order, reversed once at the end
when the configured order is descending.  Stated only for comparison with
`sortArticles`. -/
def forwardGroupBy (opts : Options) (coll : Collection) : List Entity :=
  let cats := jsSort (resolveSortCmp opts ObjectType.categories)
    (filterObjects opts ObjectType.categories coll.categories)
  let secs := jsSort (resolveSortCmp opts ObjectType.sections)
    (filterObjects opts ObjectType.sections coll.sections)
  let arts := jsSort (resolveSortCmp opts ObjectType.articles)
    (filterObjects opts ObjectType.articles coll.articles)
  let grouped := cats.flatMap (fun c =>
    (secs.filter (fun s => s.category_id == c.id)).flatMap (fun s =>
      arts.filter (fun a => a.section_id == s.id)))
  if opts.sortOrder = "desc" then grouped.reverse else grouped

/-- The strict-equality test `articles[i].id === options.articleId` of the
index loop in `render` (line 236): a number id is never strictly equal to
the null default. -/
def idMatches (aid : Option Nat) (a : Entity) : Bool :=
  match aid with
  | some v => a.id == v
  | none => false

/-- The index-finding for loop of `render` (lines 234-240): first index whose
article id strictly equals the configured id, `none` when the loop finishes
without a break (JS leaves `index` undefined). -/
def findIndexJs (p : Entity → Bool) : List Entity → Option Nat
  | [] => none
  | a :: l => if p a then some 0 else (findIndexJs p l).map (· + 1)

/-- The current/previous/next record `render` builds (lines 242-248).
`none` stands for the JS absent values: `articles[undefined]` is undefined
for the current article, and the two boundary conditionals produce null.
With an undefined index, `index - 1 >= 0` and `index + 1 < length` are both
NaN comparisons and false. -/
structure RenderData where
  currentArticle : Option Entity
  previousArticle : Option Entity
  nextArticle : Option Entity
deriving DecidableEq, Repr

/-- The index `render` computes over the sorted list. -/
def renderIndex (opts : Options) (coll : Collection) : Option Nat :=
  findIndexJs (idMatches opts.articleId) (sortArticles opts coll)

/-- The navigation data computed by `render` (lines 229-248). -/
def render (opts : Options) (coll : Collection) : RenderData :=
  { currentArticle :=
      match renderIndex opts coll with
      | some i => (sortArticles opts coll)[i]?
      | none => none
    previousArticle :=
      match renderIndex opts coll with
      | some i => if 1 ≤ i then (sortArticles opts coll)[i - 1]? else none
      | none => none
    nextArticle :=
      match renderIndex opts coll with
      | some i =>
        if i + 1 < (sortArticles opts coll).length then (sortArticles opts coll)[i + 1]?
        else none
      | none => none }

/-- The first image event eventually delivered to the listeners
`onImagesLoaded` registers (part_000 lines 14-17): a load event, an error
event, or no event at all. -/
inductive ImgEvent where
  | load
  | error
  | never
deriving DecidableEq, Repr

/-- One img element in scope of `onImagesLoaded`: its `naturalWidth` and
`complete` at query time, and the event it will deliver afterwards. -/
structure Img where
  naturalWidth : Nat
  complete : Bool
  event : ImgEvent
deriving DecidableEq, Repr

/-- The images `onImagesLoaded` creates a wait-handle for: the filter
`!img.naturalWidth || !img.complete` of lines 10-12 (naturalWidth 0 is the
only falsy value of the numeric property). -/
def pendingImages (imgs : List Img) : List Img :=
  imgs.filter (fun i => i.naturalWidth == 0 || !i.complete)

/-- Whether the `Promise.all` returned by `onImagesLoaded` (lines 13-19)
resolves: every wait-handle must resolve through its load listener; an error
event rejects its promise and hence the whole `Promise.all`, and an image
that never fires leaves it pending — in both cases the all-promise never
resolves. -/
def onImagesLoadedResolves (imgs : List Img) : Bool :=
  (pendingImages imgs).all (fun i => i.event == ImgEvent.load)

/-- The readiness counter of `onPlayerReady` (part_000 lines 239-242) after a
number of player-ready signals, paired with the number of times the
`this.numberPlayersReady === this.ids.length` check passed and started the
image barrier.  `n` is `this.ids.length`; `numberPlayersReady` starts at 0
(line 86) and each signal increments it before the equality test. -/
def runReady (n : Nat) : Nat → Nat × Nat
  | 0 => (0, 0)
  | k + 1 =>
    let st := runReady n k
    let c := st.1 + 1
    (c, st.2 + if c = n then 1 else 0)

/-- How many times the PLAYERS_READY notification fires after `k`
player-ready signals with `n` configured ids: each started image barrier
calls `onPlayersReady` exactly once, and only if its `Promise.all` resolves
— line 241 chains `.then(this.onPlayersReady.bind(this))` with no rejection
handler. -/
def playersReadyFires (n k : Nat) (imgs : List Img) : Nat :=
  if onImagesLoadedResolves imgs then (runReady n k).2 else 0

/-- JS `string.split(',')` on the string's character list (part_000 line 70).
The `[[c]]` branch is unreachable: the recursive result is never empty. -/
def jsSplitComma : List Char → List (List Char)
  | [] => [[]]
  | c :: rest =>
    match jsSplitComma rest with
    | [] => [[c]]
    | h :: t => if c = ',' then [] :: h :: t else (c :: h) :: t

/-- JS `String.prototype.trim`: strip whitespace from both ends. -/
def jsTrim (cs : List Char) : List Char :=
  ((cs.dropWhile Char.isWhitespace).reverse.dropWhile Char.isWhitespace).reverse

/-- The id list the video widget computes in its initializer (part_000 lines
69-72): `options.ids.split(',').map(function(id) { return id.trim(); })`. -/
def initIds (s : String) : List String :=
  (jsSplitComma s.data).map (fun cs => String.mk (jsTrim cs))

/-- The default `ids` option of the video widget (part_000 line 43). -/
def defaultIdsOption : String := ""

/-- Category {id 1, position 1} of the spec's worked example. -/
def exCategory1 : Entity :=
  { id := 1, name := "", position := 1, draft := false, section_id := 0, category_id := 0 }

/-- Section {id 10, category_id 1, position 1} of the spec's worked example. -/
def exSection10 : Entity :=
  { id := 10, name := "", position := 1, draft := false, section_id := 0, category_id := 1 }

/-- Section {id 11, category_id 1, position 2} of the spec's worked example. -/
def exSection11 : Entity :=
  { id := 11, name := "", position := 2, draft := false, section_id := 0, category_id := 1 }

/-- Article {id 100, section_id 10, position 1} of the spec's worked example. -/
def exArticle100 : Entity :=
  { id := 100, name := "", position := 1, draft := false, section_id := 10, category_id := 0 }

/-- Article {id 101, section_id 11, position 1} of the spec's worked example. -/
def exArticle101 : Entity :=
  { id := 101, name := "", position := 1, draft := false, section_id := 11, category_id := 0 }

/-- The collection of the spec's worked example (section 8). -/
def exampleCollection : Collection :=
  { categories := [exCategory1]
    sections := [exSection10, exSection11]
    articles := [exArticle100, exArticle101] }

/-- An article whose section_id (99) matches no section of the example
collection, after the spec's orphan-article example. -/
def orphanArticle : Entity :=
  { id := 999, name := "", position := 3, draft := false, section_id := 99, category_id := 0 }

/-- The example collection with the orphan article appended. -/
def orphanCollection : Collection :=
  { categories := [exCategory1]
    sections := [exSection10, exSection11]
    articles := [exArticle100, exArticle101, orphanArticle] }

/-- The default options with the current-article id set to 101, as in the
spec's second worked example. -/
def exOptions101 : Options :=
  { defaultOptions with articleId := some 101 }

/-- A draft article, used for the filtering claims. -/
def draftArticle : Entity :=
  { id := 500, name := "", position := 1, draft := true, section_id := 10, category_id := 0 }

/-- A published article, used for the filtering claims. -/
def publishedArticle : Entity :=
  { id := 501, name := "", position := 2, draft := false, section_id := 10, category_id := 0 }

/-- Options whose filter object has a predicate for articles while the sort
key for articles is explicitly null; exercises the
`options.sort[objectType] !== null` conjunct of the `_filterObjects`
guard. -/
def sortNullArticlesOptions : Options :=
  { filter := fun _ => some (FilterVal.fn (fun r => !r.draft))
    sort := fun t =>
      match t with
      | ObjectType.articles => some SortVal.null
      | _ => some (SortVal.name "sortByPosition")
    sortOrder := "asc"
    articleId := none }

/-- Options with an entirely absent filter object content (no keys), default
sorting otherwise. -/
def noFilterOptions : Options :=
  { filter := fun _ => none
    sort := fun _ => some (SortVal.name "sortByPosition")
    sortOrder := "asc"
    articleId := none }

/-- The default options with the articles filter key absent. -/
def artsUnfilteredOptions : Options :=
  { filter := fun t =>
      match t with
      | ObjectType.articles => none
      | _ => some (FilterVal.fn (fun r => !r.draft))
    sort := fun _ => some (SortVal.name "sortByPosition")
    sortOrder := "asc"
    articleId := none }

/-- Collection with two sections and no categories: the category forEach of
`_sortArticles` never iterates, so the in-place `sortObjects(sections, ...)`
call at line 161 never runs. -/
def noCategoryCollection : Collection :=
  { categories := [], sections := [exSection10, exSection11], articles := [] }

/-- Lexicographic order on character lists by code point, which is how a JS
relational comparison orders these ASCII names. -/
def charListLt : List Char → List Char → Bool
  | [], [] => false
  | [], _ :: _ => true
  | _ :: _, [] => false
  | c :: cs, d :: ds =>
    if c.toNat < d.toNat then true
    else if d.toNat < c.toNat then false
    else charListLt cs ds

/-- Modelled from the spec: an ascending-by-name comparator, the literal
reading of the "sortByName" label; stated only to contrast with the observed
position-based behavior. -/
def nameOrderCmp (a b : Entity) : Int :=
  if charListLt a.name.data b.name.data then -1
  else if charListLt b.name.data a.name.data then 1
  else 0

/-- An article that is first by position but last by name. -/
def posFirstNameLast : Entity :=
  { id := 601, name := "zeta", position := 1, draft := false, section_id := 10, category_id := 0 }

/-- An article that is last by position but first by name. -/
def posLastNameFirst : Entity :=
  { id := 602, name := "alpha", position := 2, draft := false, section_id := 10, category_id := 0 }

/-! Helper lemmas. -/

/-- The readiness counter equals the number of delivered signals. -/
theorem runReady_fst (n : Nat) : ∀ k, (runReady n k).1 = k := by
  intro k
  induction k with
  | zero => rfl
  | succ k ih => simp [runReady, ih]

/-- The equality check of `onPlayerReady` passes exactly once, at the n-th
signal, provided at least n signals arrive and n is positive. -/
theorem runReady_snd (n : Nat) : ∀ k, (runReady n k).2 = if 1 ≤ n ∧ n ≤ k then 1 else 0 := by
  intro k
  induction k with
  | zero =>
    have h : ¬ (1 ≤ n ∧ n ≤ 0) := by omega
    rw [if_neg h]
    rfl
  | succ k ih =>
    have hf := runReady_fst n k
    simp only [runReady]
    rw [hf, ih]
    split_ifs <;> omega

/-- Splitting a character list at commas never yields an empty list. -/
theorem jsSplitComma_ne_nil : ∀ cs : List Char, jsSplitComma cs ≠ [] := by
  intro cs
  induction cs with
  | nil => simp [jsSplitComma]
  | cons c rest ih =>
    cases h : jsSplitComma rest with
    | nil => exact absurd h ih
    | cons hd tl =>
      simp only [jsSplitComma, h]
      split <;> simp

/-! Claim theorems for the video-library widget. -/

/-- C1 counterexample: with one configured embed, one player-ready signal and
a single in-scope image that finishes with an error, the PLAYERS_READY
notification does not fire (the claim states that an image error counts as
settled exactly like a load and that the notification still fires). -/
theorem c1_counterexample :
    playersReadyFires 1 1 [{ naturalWidth := 0, complete := false, event := ImgEvent.error }]
      = 0 := by
  decide

/-- C1 (amended): when the readiness counter reaches N the barrier waits for
the pending images, but an image that finishes with an error rejects the
`Promise.all` built by `onImagesLoaded`, and since `onPlayerReady` chains
only a fulfillment handler, the PLAYERS_READY notification never fires: a
broken image does block readiness. -/
theorem c1_theorem (n k : Nat) (imgs : List Img)
    (h : ∃ i ∈ pendingImages imgs, i.event = ImgEvent.error) :
    playersReadyFires n k imgs = 0 := by
  obtain ⟨i, hmem, herr⟩ := h
  have hres : onImagesLoadedResolves imgs = false := by
    unfold onImagesLoadedResolves
    cases hall : (pendingImages imgs).all (fun i => i.event == ImgEvent.load) with
    | false => rfl
    | true =>
      rw [List.all_eq_true] at hall
      have hlo := hall i hmem
      rw [herr] at hlo
      simp at hlo
  unfold playersReadyFires
  rw [hres]
  rfl

/-- C1 witness: a concrete run with two configured embeds, five signals, one
already-loaded image and one erroring image. -/
theorem c1_witness :
    playersReadyFires 2 5
        [{ naturalWidth := 0, complete := true, event := ImgEvent.load },
          { naturalWidth := 0, complete := false, event := ImgEvent.error }]
      = 0 :=
  c1_theorem 2 5 _ (by decide)

/-- C2 counterexample: with zero configured embeds the completion
notification never fires — not with zero signals and not with five — because
the `numberPlayersReady === this.ids.length` check only runs inside
`onPlayerReady`, which is never called when there is no player.  The claim
states that with N = 0 the final notification still fires. -/
theorem c2_counterexample :
    playersReadyFires 0 0 [] = 0 ∧ playersReadyFires 0 5 [] = 0 := by
  constructor <;> decide

/-- C2 (amended): for every N ≥ 1 — and the ids option always produces
N ≥ 1 — when every in-scope image settles by loading, the PLAYERS_READY
notification fires exactly once as soon as at least N child-ready signals
have arrived, and zero times before that; for N = 0 the notification never
fires at all. -/
theorem c2_theorem :
    (∀ (n k : Nat) (imgs : List Img), 1 ≤ n → onImagesLoadedResolves imgs = true →
        playersReadyFires n k imgs = if n ≤ k then 1 else 0) ∧
      ∀ (k : Nat) (imgs : List Img), playersReadyFires 0 k imgs = 0 := by
  constructor
  · intro n k imgs hn hres
    unfold playersReadyFires
    rw [hres]
    rw [runReady_snd]
    have h : (1 ≤ n ∧ n ≤ k) ↔ n ≤ k := by omega
    simp [h]
  · intro k imgs
    unfold playersReadyFires
    split
    · rw [runReady_snd]
      have h : ¬ (1 ≤ 0 ∧ 0 ≤ k) := by omega
      simp [h]
    · rfl

/-- C2 witness: one configured embed, two delivered signals, no pending
image: the notification fires exactly once. -/
theorem c2_witness : playersReadyFires 1 2 [] = 1 := by
  have h := c2_theorem.1 1 2 [] (by decide) (by decide)
  simpa using h

/-- C3: delivering more child-ready signals than the configured count never
causes a second completion notification: the total number of PLAYERS_READY
firings is at most one, and once at least n signals have arrived, additional
signals leave that number unchanged. -/
theorem c3_theorem (n k j : Nat) (imgs : List Img) :
    playersReadyFires n k imgs ≤ 1 ∧
      (n ≤ k → playersReadyFires n (k + j) imgs = playersReadyFires n k imgs) := by
  constructor
  · unfold playersReadyFires
    split
    · rw [runReady_snd]
      split <;> omega
    · omega
  · intro hnk
    unfold playersReadyFires
    split
    · rw [runReady_snd, runReady_snd]
      have h : (1 ≤ n ∧ n ≤ k + j) ↔ (1 ≤ n ∧ n ≤ k) := by omega
      simp [h]
    · rfl

/-- C3 witness: two configured embeds, three signals plus four extra. -/
theorem c3_witness :
    playersReadyFires 2 3 [] ≤ 1 ∧
      playersReadyFires 2 (3 + 4) [] = playersReadyFires 2 3 [] :=
  ⟨(c3_theorem 2 3 4 []).1, (c3_theorem 2 3 4 []).2 (by decide)⟩

/-- C9: splitting the ids option on commas and trimming each segment always
yields at least one id, and the default empty string yields exactly the
single-element list containing the empty id — the widget can never observe
zero configured embed ids through the public ids option. -/
theorem c9_theorem :
    (∀ s : String, 1 ≤ (initIds s).length) ∧ initIds defaultIdsOption = [""] := by
  constructor
  · intro s
    unfold initIds
    rw [List.length_map]
    exact List.length_pos.mpr (jsSplitComma_ne_nil s.data)
  · decide

/-! Helper lemmas for the navigation widget. -/

/-- Ordered insertion inserts exactly one element. -/
theorem mem_orderedIns {le : Entity → Entity → Bool} {x a : Entity} :
    ∀ {l : List Entity}, a ∈ orderedIns le x l ↔ a = x ∨ a ∈ l := by
  intro l
  induction l with
  | nil => simp [orderedIns]
  | cons b t ih =>
    rw [orderedIns]
    split
    · simp [List.mem_cons]
    · simp only [List.mem_cons, ih]
      tauto

/-- The stable sort is a permutation at the level of membership. -/
theorem mem_stableSort {le : Entity → Entity → Bool} {a : Entity} :
    ∀ {l : List Entity}, a ∈ stableSort le l ↔ a ∈ l := by
  intro l
  induction l with
  | nil => simp [stableSort]
  | cons b t ih =>
    show a ∈ orderedIns le b (stableSort le t) ↔ _
    rw [mem_orderedIns]
    simp [ih, List.mem_cons]

/-- `_sortObjects` does not change membership. -/
theorem mem_sortObjects {opts : Options} {t : ObjectType} {a : Entity} {l : List Entity} :
    a ∈ sortObjects opts t l ↔ a ∈ l :=
  mem_stableSort

/-- Everything the splice scan pushes belongs to the scanned section. -/
theorem spliceScan_fst_sid (sid : Nat) :
    ∀ (l : List Entity) (a : Entity), a ∈ (spliceScan sid l).1 → a.section_id = sid := by
  intro l
  induction l with
  | nil =>
    intro a h
    simp [spliceScan] at h
  | cons b t ih =>
    intro a h
    rw [spliceScan] at h
    by_cases hb : b.section_id = sid
    · rw [if_pos hb] at h
      rcases List.mem_append.mp h with h1 | h2
      · exact ih a h1
      · have : a = b := by simpa using h2
        rw [this]
        exact hb
    · rw [if_neg hb] at h
      exact ih a h

/-- Invariant of the inner section loop: every article the accumulator holds
after the loop has a matching section in the ambient section set `S`. -/
theorem sectionFold_acc (S : List Entity) (catId : Nat) :
    ∀ (secs : List Entity) (st : List Entity × List Entity),
      (∀ s ∈ secs, s ∈ S) →
      (∀ x ∈ st.2, ∃ s ∈ S, x.section_id = s.id) →
      ∀ x ∈ (secs.foldl (sectionStep catId) st).2, ∃ s ∈ S, x.section_id = s.id := by
  intro secs
  induction secs with
  | nil =>
    intro st _ hacc x hx
    exact hacc x hx
  | cons s t ih =>
    intro st hsec hacc x hx
    rw [List.foldl_cons] at hx
    refine ih (sectionStep catId st s) (fun s' hs' => hsec s' (List.mem_cons_of_mem _ hs')) ?_ x hx
    intro y hy
    unfold sectionStep at hy
    by_cases hc : s.category_id = catId
    · rw [if_pos hc] at hy
      rcases List.mem_append.mp hy with h1 | h2
      · exact hacc y h1
      · exact ⟨s, hsec s (List.mem_cons_self s t), spliceScan_fst_sid s.id st.1 y h2⟩
    · rw [if_neg hc] at hy
      exact hacc y hy

/-- Invariant of the outer category loop: the threaded section array stays
inside the ambient section set and every accumulated article has a matching
section there. -/
theorem catFold_inv (opts : Options) (S : List Entity) :
    ∀ (cats : List Entity) (st : LoopState),
      (∀ s ∈ st.secs, s ∈ S) →
      (∀ x ∈ st.acc, ∃ s ∈ S, x.section_id = s.id) →
      (∀ s ∈ (cats.foldl (categoryStep opts) st).secs, s ∈ S) ∧
        ∀ x ∈ (cats.foldl (categoryStep opts) st).acc, ∃ s ∈ S, x.section_id = s.id := by
  intro cats
  induction cats with
  | nil =>
    intro st h1 h2
    exact ⟨h1, h2⟩
  | cons c t ih =>
    intro st h1 h2
    rw [List.foldl_cons]
    refine ih (categoryStep opts st c) ?_ ?_
    · intro s hs
      exact h1 s (mem_sortObjects.mp hs)
    · intro x hx
      exact sectionFold_acc S c.id (sortObjects opts ObjectType.sections st.secs)
        (st.arts, st.acc) (fun s' hs' => h1 s' (mem_sortObjects.mp hs')) h2 x hx

/-- The returned list in terms of the loop's final accumulator. -/
theorem sortArticles_eq (opts : Options) (coll : Collection) :
    sortArticles opts coll =
      if opts.sortOrder = "desc" then (finalState opts coll).acc
      else (finalState opts coll).acc.reverse :=
  rfl

/-- Indexing the list at the found index is exactly `find?`. -/
theorem findIndexJs_getElem (p : Entity → Bool) :
    ∀ l : List Entity,
      (match findIndexJs p l with
        | some i => l[i]?
        | none => none) = l.find? p := by
  intro l
  induction l with
  | nil => rfl
  | cons a t ih =>
    by_cases hpa : p a = true
    · simp [findIndexJs, hpa, List.find?_cons_of_pos]
    · have hpa' : p a = false := by simpa using hpa
      rw [List.find?_cons_of_neg _ hpa]
      rw [← ih]
      simp only [findIndexJs, hpa']
      cases hfi : findIndexJs p t with
      | none => simp
      | some j => simp [List.getElem?_cons_succ]

/-- If nothing matches, the index loop finishes without a break. -/
theorem findIndexJs_eq_none (p : Entity → Bool) :
    ∀ l : List Entity, (∀ x ∈ l, p x = false) → findIndexJs p l = none := by
  intro l
  induction l with
  | nil => intro _; rfl
  | cons a t ih =>
    intro h
    have hpa := h a (List.mem_cons_self a t)
    simp only [findIndexJs, hpa]
    rw [ih (fun x hx => h x (List.mem_cons_of_mem _ hx))]
    rfl

/-- Ordered insertion preserves adjacent sortedness when the order test is
total. -/
theorem chain_orderedIns (le : Entity → Entity → Bool)
    (htot : ∀ a b : Entity, le a b = true ∨ le b a = true) (a : Entity) :
    ∀ l : List Entity, List.Chain' (fun x y => le x y = true) l →
      List.Chain' (fun x y => le x y = true) (orderedIns le a l) := by
  intro l
  induction l with
  | nil =>
    intro _
    simp [orderedIns]
  | cons b t ih =>
    intro h
    rw [orderedIns]
    by_cases hab : le a b = true
    · rw [if_pos hab]
      exact List.chain'_cons.mpr ⟨hab, h⟩
    · rw [if_neg hab]
      have hba : le b a = true := (htot a b).resolve_left hab
      refine List.chain'_cons'.mpr ⟨?_, ih (List.Chain'.tail h)⟩
      intro y hy
      cases t with
      | nil =>
        have hya : y = a := Eq.symm (by simpa [orderedIns] using hy)
        rw [hya]
        exact hba
      | cons c t' =>
        rw [orderedIns] at hy
        by_cases hac : le a c = true
        · rw [if_pos hac] at hy
          have hya : y = a := Eq.symm (by simpa using hy)
          rw [hya]
          exact hba
        · rw [if_neg hac] at hy
          have hyc : y = c := Eq.symm (by simpa using hy)
          rw [hyc]
          exact (List.chain'_cons.mp h).1

/-- The stable sort always produces an adjacent-sorted list when the order
test is total. -/
theorem chain_stableSort (le : Entity → Entity → Bool)
    (htot : ∀ a b : Entity, le a b = true ∨ le b a = true) :
    ∀ l : List Entity, List.Chain' (fun x y => le x y = true) (stableSort le l) := by
  intro l
  induction l with
  | nil => simp [stableSort]
  | cons b t ih => exact chain_orderedIns le htot b (stableSort le t) ih

/-- Sorting an adjacent-sorted list returns it unchanged. -/
theorem stableSort_of_chain (le : Entity → Entity → Bool) :
    ∀ l : List Entity, List.Chain' (fun x y => le x y = true) l → stableSort le l = l := by
  intro l
  induction l with
  | nil =>
    intro _
    rfl
  | cons b t ih =>
    intro h
    show orderedIns le b (stableSort le t) = b :: t
    rw [ih (List.Chain'.tail h)]
    cases t with
    | nil => rfl
    | cons c t' =>
      rw [orderedIns, if_pos (List.chain'_cons.mp h).1]

/-- The stable sort is idempotent for a total order test. -/
theorem stableSort_idem (le : Entity → Entity → Bool)
    (htot : ∀ a b : Entity, le a b = true ∨ le b a = true) (l : List Entity) :
    stableSort le (stableSort le l) = stableSort le l :=
  stableSort_of_chain le (stableSort le l) (chain_stableSort le htot l)

/-- `_sortObjects` is idempotent when its resolved comparator is total. -/
theorem sortObjects_idem (opts : Options) (t : ObjectType)
    (htot : ∀ a b : Entity, resolveSortCmp opts t a b ≤ 0 ∨ resolveSortCmp opts t b a ≤ 0)
    (l : List Entity) :
    sortObjects opts t (sortObjects opts t l) = sortObjects opts t l := by
  unfold sortObjects jsSort
  apply stableSort_idem
  intro a b
  rcases htot a b with h | h
  · exact Or.inl (decide_eq_true h)
  · exact Or.inr (decide_eq_true h)

/-- After at least one category iteration, the threaded sections array is
exactly the in-place sort of its initial content: the first iteration sorts
it and, for a total comparator, every later iteration re-sorts it to the
same list. -/
theorem catFold_secs (opts : Options)
    (htot : ∀ a b : Entity, resolveSortCmp opts ObjectType.sections a b ≤ 0 ∨
      resolveSortCmp opts ObjectType.sections b a ≤ 0) :
    ∀ (cats : List Entity) (st : LoopState), cats ≠ [] →
      (cats.foldl (categoryStep opts) st).secs = sortObjects opts ObjectType.sections st.secs := by
  intro cats
  induction cats with
  | nil =>
    intro st h
    exact absurd rfl h
  | cons c t ih =>
    intro st _
    rw [List.foldl_cons]
    cases t with
    | nil => rfl
    | cons c' t' =>
      rw [ih (categoryStep opts st c) (List.cons_ne_nil c' t')]
      show sortObjects opts ObjectType.sections (sortObjects opts ObjectType.sections st.secs) = _
      exact sortObjects_idem opts ObjectType.sections htot st.secs

/-- Ordered insertion permutes consing. -/
theorem perm_orderedIns (le : Entity → Entity → Bool) (a : Entity) :
    ∀ l : List Entity, List.Perm (orderedIns le a l) (a :: l) := by
  intro l
  induction l with
  | nil => exact List.Perm.refl _
  | cons b t ih =>
    rw [orderedIns]
    split
    · exact List.Perm.refl _
    · exact List.Perm.trans (List.Perm.cons b ih) (List.Perm.swap a b t)

/-- The stable sort is a permutation of its input. -/
theorem perm_stableSort (le : Entity → Entity → Bool) :
    ∀ l : List Entity, List.Perm (stableSort le l) l := by
  intro l
  induction l with
  | nil => exact List.Perm.refl _
  | cons b t ih =>
    exact List.Perm.trans (perm_orderedIns le b (stableSort le t)) (List.Perm.cons b ih)

/-- `_sortObjects` permutes its input. -/
theorem perm_sortObjects (opts : Options) (t : ObjectType) (l : List Entity) :
    List.Perm (sortObjects opts t l) l :=
  perm_stableSort _ l

/-- The splice scan partitions the pool: pushed and remaining articles
together permute the scanned pool. -/
theorem spliceScan_perm (sid : Nat) :
    ∀ l : List Entity, List.Perm ((spliceScan sid l).1 ++ (spliceScan sid l).2) l := by
  intro l
  induction l with
  | nil => exact List.Perm.refl _
  | cons a t ih =>
    rw [spliceScan]
    split
    · show List.Perm (((spliceScan sid t).1 ++ [a]) ++ (spliceScan sid t).2) (a :: t)
      have h1 : ((spliceScan sid t).1 ++ [a]) ++ (spliceScan sid t).2
          = (spliceScan sid t).1 ++ a :: (spliceScan sid t).2 := by
        rw [List.append_assoc]
        rfl
      rw [h1]
      exact List.Perm.trans List.perm_middle (List.Perm.cons a ih)
    · show List.Perm ((spliceScan sid t).1 ++ a :: (spliceScan sid t).2) (a :: t)
      exact List.Perm.trans List.perm_middle (List.Perm.cons a ih)

/-- One section step preserves the multiset of accumulator plus pool. -/
theorem sectionStep_perm (catId : Nat) (st : List Entity × List Entity) (s : Entity) :
    List.Perm ((sectionStep catId st s).2 ++ (sectionStep catId st s).1) (st.2 ++ st.1) := by
  unfold sectionStep
  split
  · show List.Perm ((st.2 ++ (spliceScan s.id st.1).1) ++ (spliceScan s.id st.1).2) (st.2 ++ st.1)
    rw [List.append_assoc]
    exact List.Perm.append_left st.2 (spliceScan_perm s.id st.1)
  · exact List.Perm.refl _

/-- The inner section loop preserves the multiset of accumulator plus pool. -/
theorem sectionFold_perm (catId : Nat) :
    ∀ (secs : List Entity) (st : List Entity × List Entity),
      List.Perm ((secs.foldl (sectionStep catId) st).2 ++ (secs.foldl (sectionStep catId) st).1)
        (st.2 ++ st.1) := by
  intro secs
  induction secs with
  | nil =>
    intro st
    exact List.Perm.refl _
  | cons s t ih =>
    intro st
    rw [List.foldl_cons]
    exact List.Perm.trans (ih (sectionStep catId st s)) (sectionStep_perm catId st s)

/-- The category loop preserves the multiset of accumulator plus pool. -/
theorem catFold_perm (opts : Options) :
    ∀ (cats : List Entity) (st : LoopState),
      List.Perm
        ((cats.foldl (categoryStep opts) st).acc ++ (cats.foldl (categoryStep opts) st).arts)
        (st.acc ++ st.arts) := by
  intro cats
  induction cats with
  | nil =>
    intro st
    exact List.Perm.refl _
  | cons c t ih =>
    intro st
    rw [List.foldl_cons]
    refine List.Perm.trans (ih (categoryStep opts st c)) ?_
    show List.Perm
      (((sortObjects opts ObjectType.sections st.secs).foldl
          (sectionStep c.id) (st.arts, st.acc)).2
        ++ ((sortObjects opts ObjectType.sections st.secs).foldl
          (sectionStep c.id) (st.arts, st.acc)).1)
      (st.acc ++ st.arts)
    exact sectionFold_perm c.id (sortObjects opts ObjectType.sections st.secs) (st.arts, st.acc)

/-! Claim theorems for the navigation widget. -/

/-- C4: evaluation of the embedded `_sortArticles` at the spec's worked
example (one category, two sections with positions 1 and 2, one article in
each section, ascending order).  The double-reversal algorithm yields
[article 101, article 100]: reversing categories and sections *before*
re-sorting them ascending cancels the reversal, so after the final
`reverse()` the categories and sections come out in descending order while
the claim — and the forward two-level group-by, evaluated in the second
conjunct — require [article 100, article 101]. -/
theorem c4_theorem :
    sortArticles defaultOptions exampleCollection = [exArticle101, exArticle100] ∧
      forwardGroupBy defaultOptions exampleCollection = [exArticle100, exArticle101] := by
  constructor <;> decide

/-- C6: an article whose section_id matches no section remaining in the
filtered section set never appears in the list `_sortArticles` returns,
for every option configuration and every input collection. -/
theorem c6_theorem (opts : Options) (coll : Collection) (a : Entity)
    (h : ∀ s ∈ filterObjects opts ObjectType.sections coll.sections, s.id ≠ a.section_id) :
    a ∉ sortArticles opts coll := by
  intro hmem
  rw [sortArticles_eq] at hmem
  have hacc : a ∈ (finalState opts coll).acc := by
    by_cases hd : opts.sortOrder = "desc"
    · rw [if_pos hd] at hmem
      exact hmem
    · rw [if_neg hd] at hmem
      exact List.mem_reverse.mp hmem
  unfold finalState at hacc
  have hinv := catFold_inv opts (filterObjects opts ObjectType.sections coll.sections)
    (initialCats opts coll)
    { secs := initialSecs opts coll, arts := initialArts opts coll, acc := [] }
    (fun s hs => List.mem_reverse.mp hs)
    (fun x hx => absurd hx (List.not_mem_nil x))
  obtain ⟨s, hsmem, hsid⟩ := hinv.2 a hacc
  exact h s hsmem hsid.symm

/-- C6 witness: the article with section_id 99 is absent from the sorted
list of the example collection extended with it. -/
theorem c6_witness : orphanArticle ∉ sortArticles defaultOptions orphanCollection :=
  c6_theorem defaultOptions orphanCollection orphanArticle (by decide)

/-- C7 counterexample: options whose filter object holds the draft-excluding
predicate for articles while the sort key for articles is explicitly null.
The configured predicate removes the draft article, yet `_filterObjects`
returns the list unfiltered, because its guard tests
`options.sort[objectType] !== null` rather than the filter value — so an
entity group is not always passed through its configured filter predicate. -/
theorem c7_counterexample :
    filterObjects sortNullArticlesOptions ObjectType.articles [draftArticle] = [draftArticle] ∧
      List.filter (fun r => !r.draft) [draftArticle] = [] := by
  constructor <;> decide

/-- C7 (amended): each entity group is passed through its configured filter
predicate provided the group's *sort* setting is not explicitly null (the
guard of `_filterObjects` consults the sort configuration); in particular
the default configuration filters every group with the draft-excluding
predicate, and an absent filter key means the group is not filtered at
all. -/
theorem c7_theorem :
    (∀ (t : ObjectType) (l : List Entity),
        filterObjects defaultOptions t l = l.filter (fun r => !r.draft)) ∧
      (∀ (opts : Options) (t : ObjectType) (l : List Entity) (p : Entity → Bool),
        opts.filter t = some (FilterVal.fn p) → sortIsNull opts t = false →
        filterObjects opts t l = l.filter p) ∧
      ∀ (opts : Options) (t : ObjectType) (l : List Entity),
        opts.filter t = none → filterObjects opts t l = l := by
  refine ⟨fun t l => rfl, ?_, ?_⟩
  · intro opts t l p hf hs
    unfold filterObjects resolveFilter
    rw [hf, hs]
    simp
  · intro opts t l hf
    unfold filterObjects resolveFilter
    rw [hf]
    simp

/-- C7 witness: the default configuration drops the draft article and keeps
the published one; options with no filter keys leave the draft article in
place. -/
theorem c7_witness :
    filterObjects defaultOptions ObjectType.articles [draftArticle, publishedArticle]
        = [publishedArticle] ∧
      filterObjects noFilterOptions ObjectType.articles [draftArticle] = [draftArticle] :=
  ⟨(c7_theorem.1 ObjectType.articles [draftArticle, publishedArticle]).trans (by decide),
    c7_theorem.2.2 noFilterOptions ObjectType.articles [draftArticle] rfl⟩

/-- C8: under the default configuration `_sortObjects` sorts articles with
the position comparator resolved from the "sortByPosition" default through
the Util registry; on a concrete pair whose name order and position order
disagree, the output follows position, not name (the `sortByName` label in
the `defaultSortingFunctions` fallback is never reached by the defaults). -/
theorem c8_theorem :
    (∀ l : List Entity,
        sortObjects defaultOptions ObjectType.articles l = jsSort sortByPosition l) ∧
      sortObjects defaultOptions ObjectType.articles [posFirstNameLast, posLastNameFirst]
          = [posFirstNameLast, posLastNameFirst] ∧
      jsSort nameOrderCmp [posFirstNameLast, posLastNameFirst]
          = [posLastNameFirst, posFirstNameLast] := by
  refine ⟨fun l => rfl, by decide, by decide⟩

/-- C10 counterexample: with the articles filter key absent, `_sortArticles`
on the example collection leaves the caller's articles array empty — every
article was spliced out after being emitted — not "reversed and sorted",
which would be the nonempty list computed in the second conjunct. -/
theorem c10_counterexample :
    (sortArticlesRun artsUnfilteredOptions exampleCollection).artsFinal = [] ∧
      jsSort (resolveSortCmp artsUnfilteredOptions ObjectType.articles)
          exampleCollection.articles.reverse = [exArticle101, exArticle100] := by
  constructor <;> decide

/-- C10 (amended): under the default configuration — function-valued filter
predicates for all three groups — `_sortArticles` leaves the caller's
categories, sections and articles arrays unchanged, because filtering copies
each array before any in-place mutation.  When a group's filter predicate is
not applied the caller's own array is mutated in place instead, but not
always to "reversed and sorted": the categories array does end up reversed
and then sorted; the sections array ends up reversed and then re-sorted once
per category iteration, so with no surviving category it ends up merely
reversed and never sorted, while with at least one category and a total
section comparator it ends up sorted; and the articles array is sorted in
place and every article emitted to the output is spliced out of it, so it
retains exactly the unmatched articles — output plus final array content
permute the original articles. -/
theorem c10_theorem :
    (∀ coll : Collection,
        (sortArticlesRun defaultOptions coll).catsFinal = coll.categories ∧
          (sortArticlesRun defaultOptions coll).secsFinal = coll.sections ∧
          (sortArticlesRun defaultOptions coll).artsFinal = coll.articles) ∧
      (∀ (opts : Options) (coll : Collection),
        resolveFilter opts ObjectType.categories = none →
        (sortArticlesRun opts coll).catsFinal
            = jsSort (resolveSortCmp opts ObjectType.categories) coll.categories.reverse) ∧
      (∀ (opts : Options) (coll : Collection),
        resolveFilter opts ObjectType.sections = none →
        initialCats opts coll = [] →
        (sortArticlesRun opts coll).secsFinal = coll.sections.reverse) ∧
      (∀ (opts : Options) (coll : Collection),
        resolveFilter opts ObjectType.sections = none →
        initialCats opts coll ≠ [] →
        (∀ a b : Entity, resolveSortCmp opts ObjectType.sections a b ≤ 0 ∨
          resolveSortCmp opts ObjectType.sections b a ≤ 0) →
        (sortArticlesRun opts coll).secsFinal
            = sortObjects opts ObjectType.sections coll.sections.reverse) ∧
      ∀ (opts : Options) (coll : Collection),
        resolveFilter opts ObjectType.articles = none →
        List.Perm (sortArticles opts coll ++ (sortArticlesRun opts coll).artsFinal)
          coll.articles := by
  refine ⟨fun coll => ⟨rfl, rfl, rfl⟩, ?_, ?_, ?_, ?_⟩
  · intro opts coll h
    show (if (resolveFilter opts ObjectType.categories).isSome then coll.categories
        else initialCats opts coll) = _
    rw [h]
    simp only [Option.isSome_none, Bool.false_eq_true, if_false]
    unfold initialCats sortObjects filterObjects
    rw [h]
  · intro opts coll hf hcats
    show (if (resolveFilter opts ObjectType.sections).isSome then coll.sections
        else (finalState opts coll).secs) = _
    rw [hf]
    simp only [Option.isSome_none, Bool.false_eq_true, if_false]
    unfold finalState
    rw [hcats]
    show initialSecs opts coll = _
    unfold initialSecs filterObjects
    rw [hf]
  · intro opts coll hf hcats htot
    show (if (resolveFilter opts ObjectType.sections).isSome then coll.sections
        else (finalState opts coll).secs) = _
    rw [hf]
    simp only [Option.isSome_none, Bool.false_eq_true, if_false]
    unfold finalState
    rw [catFold_secs opts htot (initialCats opts coll)
      { secs := initialSecs opts coll, arts := initialArts opts coll, acc := [] } hcats]
    show sortObjects opts ObjectType.sections (initialSecs opts coll) = _
    unfold initialSecs filterObjects
    rw [hf]
  · intro opts coll hf
    have hrun : (sortArticlesRun opts coll).artsFinal = (finalState opts coll).arts := by
      show (if (resolveFilter opts ObjectType.articles).isSome then coll.articles
          else (finalState opts coll).arts) = _
      rw [hf]
      simp
    rw [hrun]
    have hsorted : List.Perm (sortArticles opts coll) (finalState opts coll).acc := by
      rw [sortArticles_eq]
      split
      · exact List.Perm.refl _
      · exact List.reverse_perm _
    have hfold := catFold_perm opts (initialCats opts coll)
      { secs := initialSecs opts coll, arts := initialArts opts coll, acc := [] }
    have harts : List.Perm (initialArts opts coll) coll.articles := by
      unfold initialArts filterObjects
      rw [hf]
      exact perm_sortObjects opts ObjectType.articles coll.articles
    exact ((List.Perm.append hsorted (List.Perm.refl _)).trans hfold).trans harts

/-- C10 witness: with no filter keys the caller's categories array ends up
reversed and sorted; on a collection with no categories the caller's
sections array ends up merely reversed; on the example collection (one
category) it ends up sorted; and with the articles filter key absent, the
output plus the final articles array content permute the original
articles. -/
theorem c10_witness :
    ((sortArticlesRun noFilterOptions exampleCollection).catsFinal
        = jsSort (resolveSortCmp noFilterOptions ObjectType.categories)
            exampleCollection.categories.reverse) ∧
      (sortArticlesRun noFilterOptions noCategoryCollection).secsFinal
          = noCategoryCollection.sections.reverse ∧
      (sortArticlesRun noFilterOptions exampleCollection).secsFinal
          = sortObjects noFilterOptions ObjectType.sections
              exampleCollection.sections.reverse ∧
      List.Perm (sortArticles artsUnfilteredOptions exampleCollection
          ++ (sortArticlesRun artsUnfilteredOptions exampleCollection).artsFinal)
        exampleCollection.articles := by
  refine ⟨c10_theorem.2.1 noFilterOptions exampleCollection rfl,
    c10_theorem.2.2.1 noFilterOptions noCategoryCollection rfl rfl,
    c10_theorem.2.2.2.1 noFilterOptions exampleCollection rfl (by decide) ?_,
    c10_theorem.2.2.2.2 artsUnfilteredOptions exampleCollection rfl⟩
  intro a b
  show sortByPosition a b ≤ 0 ∨ sortByPosition b a ≤ 0
  unfold sortByPosition
  omega

/-- C5: `render` resolves the current article to the first element of the
sorted list whose id strictly equals the configured current-article id; when
the index loop finds index i, the previous article is the element at i − 1
(none at the lower boundary) and the next article is the element at i + 1
(none past the upper boundary, where the lookup is out of range); and when
no article matches the configured id, the current article resolves to the
JS undefined and both neighbors to null — all modelled as `none`. -/
theorem c5_theorem (opts : Options) (coll : Collection) :
    ((render opts coll).currentArticle
        = (sortArticles opts coll).find? (idMatches opts.articleId)) ∧
      (∀ i, renderIndex opts coll = some i →
        (render opts coll).previousArticle
            = (if i = 0 then none else (sortArticles opts coll)[i - 1]?) ∧
          (render opts coll).nextArticle = (sortArticles opts coll)[i + 1]?) ∧
      ((∀ x ∈ sortArticles opts coll, idMatches opts.articleId x = false) →
        (render opts coll).currentArticle = none ∧
          (render opts coll).previousArticle = none ∧
          (render opts coll).nextArticle = none) := by
  refine ⟨findIndexJs_getElem (idMatches opts.articleId) (sortArticles opts coll), ?_, ?_⟩
  · intro i hi
    constructor
    · show (match renderIndex opts coll with
          | some j => if 1 ≤ j then (sortArticles opts coll)[j - 1]? else none
          | none => none) = _
      rw [hi]
      by_cases h0 : i = 0
      · subst h0
        simp
      · have h1 : 1 ≤ i := by omega
        simp only [if_pos h1, if_neg h0]
    · show (match renderIndex opts coll with
          | some j =>
            if j + 1 < (sortArticles opts coll).length then (sortArticles opts coll)[j + 1]?
            else none
          | none => none) = _
      rw [hi]
      show (if i + 1 < (sortArticles opts coll).length then (sortArticles opts coll)[i + 1]?
          else none) = _
      by_cases hlt : i + 1 < (sortArticles opts coll).length
      · rw [if_pos hlt]
      · rw [if_neg hlt]
        exact (List.getElem?_eq_none (by omega)).symm
  · intro hall
    have hnone : renderIndex opts coll = none :=
      findIndexJs_eq_none (idMatches opts.articleId) (sortArticles opts coll) hall
    refine ⟨?_, ?_, ?_⟩
    · show (match renderIndex opts coll with
          | some j => (sortArticles opts coll)[j]?
          | none => none) = none
      rw [hnone]
    · show (match renderIndex opts coll with
          | some j => if 1 ≤ j then (sortArticles opts coll)[j - 1]? else none
          | none => none) = none
      rw [hnone]
    · show (match renderIndex opts coll with
          | some j =>
            if j + 1 < (sortArticles opts coll).length then (sortArticles opts coll)[j + 1]?
            else none
          | none => none) = none
      rw [hnone]

/-- C5 witness: the spec's second worked example (current-article id 101).
On the list `_sortArticles` actually produces, article 101 sits at index 0,
so the previous article is none and the next article is article 100. -/
theorem c5_witness :
    (render exOptions101 exampleCollection).currentArticle = some exArticle101 ∧
      (render exOptions101 exampleCollection).previousArticle = none ∧
      (render exOptions101 exampleCollection).nextArticle = some exArticle100 := by
  have h := c5_theorem exOptions101 exampleCollection
  have h2 := h.2.1 0 (by decide)
  exact ⟨h.1.trans (by decide), h2.1.trans (by decide), h2.2.trans (by decide)⟩

end KcTheme
